import Mathlib

/-!
Verification development for the freshmaker core: rule engine,
persistence model, batch scheduler, dedup resolver, retry primitive,
NVR rewriting and permissions configuration.

Components whose code lives under `src/freshmaker` (`retry`,
`get_rebuilt_nvr`, `Config._setifok_permissions`) are translated from the
source.  The rule engine, persistence model, batch scheduler, dedup
resolver and handlers are exercised only by the tests in `src/tests`;
their definitions here are modelled from the specification (sections 4.2
to 4.6 of the spec) and each such definition says so in its doc comment.
-/

namespace Freshmaker

/-! ## Rule engine: pattern matching

Modelled from the spec: a matcher is either a regular-expression-like
string pattern matched against the string form of the attribute value,
succeeding if the pattern matches anywhere in the value, or a set of
allowed literal values.  The patterns used by the configuration (for
example "RHSA-.*") use literal characters, the any-character dot and the
Kleene star, so the embedded pattern language covers exactly those. -/

/-- A single pattern token: a literal character or the any-character dot. -/
inductive RTok where
  | lit (c : Char)
  | dot
deriving DecidableEq, Repr

/-- A pattern element: a plain token or a starred token. -/
inductive RElem where
  | tok (t : RTok)
  | star (t : RTok)
deriving DecidableEq, Repr

/-- Turn a pattern character into a token. -/
def charTok (c : Char) : RTok :=
  if c = '.' then RTok.dot else RTok.lit c

/-- Parse a pattern string into elements; a star applies to the
preceding token. -/
def parsePattern : List Char → List RElem
  | [] => []
  | c :: '*' :: rest => RElem.star (charTok c) :: parsePattern rest
  | c :: rest => RElem.tok (charTok c) :: parsePattern rest

/-- Does a token accept a character? -/
def tokAccept : RTok → Char → Bool
  | RTok.lit c, x => c = x
  | RTok.dot, _ => true

/-- Can the remaining pattern elements match the empty string?  Only
starred tokens may be skipped. -/
def nullable : List RElem → Bool
  | [] => true
  | RElem.tok _ :: _ => false
  | RElem.star _ :: rest => nullable rest

/-- Advance one live pattern continuation over one character of text:
the possible remaining continuations.  A plain token consumes the
character; a starred token either consumes it and stays, or is skipped
before the character is offered to the rest. -/
def stepOne : List RElem → Char → List (List RElem)
  | [], _ => []
  | RElem.tok t :: rest, c => if tokAccept t c then [rest] else []
  | RElem.star t :: rest, c =>
      (if tokAccept t c then [RElem.star t :: rest] else []) ++ stepOne rest c

/-- Advance every live continuation over one character. -/
def stepSet (ss : List (List RElem)) (c : Char) : List (List RElem) :=
  (ss.map (fun es => stepOne es c)).flatten

/-- Thompson-style simulation of the pattern over the text: `ss` holds
the live continuations of matches begun at earlier positions; a match
may also begin at every later position, so a fresh copy of the whole
pattern joins the live set at each character.  The text matches as soon
as some live continuation accepts the empty rest. -/
def searchLive (es : List RElem) : List (List RElem) → List Char → Bool
  | ss, [] => ss.any nullable
  | ss, c :: cs => ss.any nullable || searchLive es (stepSet ss c ++ [es]) cs

/-- `patternSearch p s` holds when pattern `p` matches anywhere in `s`,
as `re.search` would. -/
def patternSearch (p s : String) : Bool :=
  searchLive (parsePattern p.toList) [parsePattern p.toList] s.toList

/-! ## Rule engine: matchers, rules, rule sets -/

/-- An attribute value in an attribute bag: a single string or a
collection of strings. -/
inductive AttrVal where
  | s (x : String)
  | many (xs : List String)
deriving DecidableEq, Repr

/-- Modelled from the spec: a matcher is (a) a pattern matched against
the string form of a single attribute value, succeeding if it matches
anywhere, or (b) a set of allowed literal values, matched against the
attribute value directly, or, if the attribute value is itself a
collection, succeeding if the intersection with the allowed set is
non-empty. -/
inductive Matcher where
  | pat (p : String)
  | allowed (vs : List String)
deriving DecidableEq, Repr

/-- Evaluate a matcher against one attribute value. -/
def matchValue : Matcher → AttrVal → Bool
  | Matcher.pat p, AttrVal.s x => patternSearch p x
  | Matcher.pat p, AttrVal.many xs => xs.any (fun x => patternSearch p x)
  | Matcher.allowed vs, AttrVal.s x => vs.contains x
  | Matcher.allowed vs, AttrVal.many xs => xs.any (fun x => vs.contains x)

/-- An attribute bag: attribute name to value. -/
abbrev AttrBag := List (String × AttrVal)

/-- Look up an attribute in a bag (first binding wins). -/
def bagGet (bag : AttrBag) (k : String) : Option AttrVal :=
  (bag.find? (fun kv => kv.1 = k)).map (fun kv => kv.2)

/-- Modelled from the spec: a rule is a mapping from attribute name to
matcher, true iff every key present in the rule matches (implicit AND);
absent attributes never match a non-empty matcher.  Rule sets nest:
`anyOf` is true iff at least one contained rule is true, `allOf` iff
every contained rule is true. -/
inductive Rule where
  | field (entries : List (String × Matcher))
  | anyOf (rs : List Rule)
  | allOf (rs : List Rule)
deriving Repr

mutual

/-- Evaluate a rule or rule set against an attribute bag. -/
def evalRule (bag : AttrBag) : Rule → Bool
  | Rule.field entries =>
      entries.all (fun km =>
        match bagGet bag km.1 with
        | some v => matchValue km.2 v
        | none => false)
  | Rule.anyOf rs => evalRuleAny bag rs
  | Rule.allOf rs => evalRuleAll bag rs

/-- True iff at least one rule of the list evaluates true. -/
def evalRuleAny (bag : AttrBag) : List Rule → Bool
  | [] => false
  | r :: rs => evalRule bag r || evalRuleAny bag rs

/-- True iff every rule of the list evaluates true. -/
def evalRuleAll (bag : AttrBag) : List Rule → Bool
  | [] => true
  | r :: rs => evalRule bag r && evalRuleAll bag rs

end

/-- A handler's rule table: handler name, then artifact type, to rules. -/
abbrev RuleTable := List (String × List (String × List Rule))

/-- Rules configured for one handler and artifact type (empty when no
configuration exists for them). -/
def rulesFor (tbl : RuleTable) (handler atype : String) : List Rule :=
  match (tbl.find? (fun kv => kv.1 = handler)).map (fun kv => kv.2) with
  | none => []
  | some byType =>
      match (byType.find? (fun kv => kv.1 = atype)).map (fun kv => kv.2) with
      | none => []
      | some rs => rs

/-- Modelled from the spec: the artifact is accepted iff the allow-list
for this handler and type is empty or at least one of its rules matches,
and the block-list for this handler and type is empty or none of its
rules match. -/
def allowBuild (allowlist blocklist : RuleTable) (handler atype : String)
    (bag : AttrBag) : Bool :=
  let arules := rulesFor allowlist handler atype
  let brules := rulesFor blocklist handler atype
  (arules.isEmpty || arules.any (fun r => evalRule bag r)) &&
    (brules.isEmpty || !brules.any (fun r => evalRule bag r))

/-! ## Persistence model

Modelled from the spec: entities `Event` and `ArtifactBuild` with the
operations `get_or_create_event`, `create_build`, `mark_released` and
`find_unreleased_events_with_builds` (spec section 4.3); the code of
`freshmaker/models.py` is not part of the sources, only its tests are. -/

/-- Artifact build state: PLANNED, BUILD, DONE or FAILED. -/
inductive BuildState where
  | planned
  | build
  | done
  | failed
deriving DecidableEq, Repr

/-- Artifact kind: module, image or rpm. -/
inductive ArtifactType where
  | rpm
  | module
  | image
deriving DecidableEq, Repr

/-- The integer tag of an artifact type, as stored in build rows and
compared by `get_rebuilt_nvr`. -/
def ArtifactType.value : ArtifactType → Nat
  | ArtifactType.rpm => 0
  | ArtifactType.module => 1
  | ArtifactType.image => 2

/-- An event row: sequential id, externally supplied message id and
search key, an event type tag, and the released flag. -/
structure Event where
  id : Nat
  message_id : String
  search_key : String
  event_type : String
  released : Bool
deriving DecidableEq, Repr

/-- Build arguments persisted verbatim with each build: repository,
commit, target, branch and the resolved parent name. -/
structure BuildArgs where
  repository : String
  commit : String
  target : String
  branch : String
  parent : Option String
deriving DecidableEq, Repr

/-- An artifact build row.  `dep_on` is the id of the rebuild parent
build, when any. -/
structure ArtifactBuild where
  id : Nat
  event_id : Nat
  name : String
  type : ArtifactType
  state : BuildState
  state_reason : String
  build_args : BuildArgs
  dep_on : Option Nat
deriving DecidableEq, Repr

/-- The persistence store: event rows, build rows and the sequential id
counters. -/
structure DB where
  events : List Event
  builds : List ArtifactBuild
  next_event_id : Nat
  next_build_id : Nat
deriving DecidableEq, Repr

/-- The empty store. -/
def DB.empty : DB :=
  { events := [], builds := [], next_event_id := 1, next_build_id := 1 }

/-- Modelled from the spec: `get_or_create_event` returns an existing
event if one with the same `message_id` already exists (idempotent
re-delivery), else creates one with `released = false`. -/
def get_or_create_event (db : DB) (mid skey etype : String) : DB × Event :=
  match db.events.find? (fun e => e.message_id = mid) with
  | some e => (db, e)
  | none =>
      let e : Event :=
        { id := db.next_event_id, message_id := mid, search_key := skey,
          event_type := etype, released := false }
      ({ db with events := db.events ++ [e],
                 next_event_id := db.next_event_id + 1 }, e)

/-- Modelled from the spec: `mark_released` sets `released = true`; a
no-op if already true.  The handler addresses the event through its
search key. -/
def mark_released_by_key (db : DB) (skey : String) : DB :=
  { db with
      events := db.events.map (fun e =>
        if e.search_key = skey then { e with released := true } else e) }

/-- Modelled from the spec: all distinct events, other than the
excluded one, with `released = false` that own at least one build whose
name is among `names`. -/
def find_unreleased_events_with_builds (db : DB) (names : List String)
    (exclude : Event) : List Event :=
  db.events.filter (fun e =>
    e.id ≠ exclude.id && !e.released &&
      db.builds.any (fun b => b.event_id = e.id && names.contains b.name))

/-! ## Batch scheduler

Modelled from the spec (section 4.5): the scheduler consumes an ordered
sequence of levels of candidate nodes and persists one build row per
node, resolving each node's declared parent through a name-to-build
lookup scoped to the run; a node with an explicit error, or whose
resolved parent build is FAILED, is created directly as FAILED with a
reason, otherwise as PLANNED. -/

/-- A candidate node of the dependency tree: artifact name, optional
parent artifact name, optional explicit error from the upstream
resolver, and the opaque build arguments (repository, commit, target,
branch) to persist verbatim. -/
structure BuildNode where
  name : String
  parent : Option String
  error : Option String
  repository : String
  commit : String
  target : String
  branch : String
deriving DecidableEq, Repr

/-- The reason recorded on a build that fails because its dependency
failed. -/
def depFailReason (parentName : String) : String :=
  "Cannot build artifact, because its dependency " ++ parentName ++ " cannot be built."

/-- Scheduler accumulator: the store so far and the name-to-build
lookup scoped to this scheduling run. -/
abbrev SchedState := DB × List (String × ArtifactBuild)

/-- Process one candidate node: resolve the parent through the run's
lookup (a missing lookup makes the parent absent), pick the initial
state and reason, persist the build row and extend the lookup. -/
def recordNode (ev : Event) (st : SchedState) (node : BuildNode) : SchedState :=
  let db := st.1
  let lookup := st.2
  let pb : Option ArtifactBuild :=
    node.parent.bind (fun p =>
      (lookup.find? (fun kv => kv.1 = p)).map (fun kv => kv.2))
  let failedParent : Option ArtifactBuild :=
    match pb with
    | some b => if b.state = BuildState.failed then some b else none
    | none => none
  let state : BuildState :=
    if node.error.isSome || failedParent.isSome then BuildState.failed
    else BuildState.planned
  let reason : String :=
    match node.error with
    | some err => err
    | none =>
        match failedParent with
        | some b => depFailReason b.name
        | none => ""
  let b : ArtifactBuild :=
    { id := db.next_build_id, event_id := ev.id, name := node.name,
      type := ArtifactType.image, state := state, state_reason := reason,
      build_args :=
        { repository := node.repository, commit := node.commit,
          target := node.target, branch := node.branch,
          parent := pb.map (fun p => p.name) },
      dep_on := pb.map (fun p => p.id) }
  ({ db with builds := db.builds ++ [b], next_build_id := db.next_build_id + 1 },
   lookup ++ [(node.name, b)])

/-- Process one level of the tree in order. -/
def recordBatch (ev : Event) (st : SchedState) (batch : List BuildNode) : SchedState :=
  batch.foldl (recordNode ev) st

/-- Modelled from the spec: record all levels strictly in input order,
parents before children, against the event `ev`. -/
def record_batches (db : DB) (ev : Event) (batches : List (List BuildNode)) : DB :=
  (batches.foldl (recordBatch ev) (db, [])).1

/-- The builds created by a scheduling run (the rows appended to the
store by `record_batches`). -/
def createdBuilds (db : DB) (ev : Event) (batches : List (List BuildNode)) :
    List ArtifactBuild :=
  (record_batches db ev batches).builds.drop db.builds.length

/-! ## Handlers

Modelled from the spec (section 4.6): a handler applies the rule-engine
allow/deny check to the inbound artifact and, if accepted, invokes the
batch scheduler; rejected artifacts are dropped silently, nothing is
recorded.  The advisory state-change handler marks the matching event
released exactly when the advisory reaches its final published state. -/

/-- Modelled from the spec: handle a signed-advisory event.  The
attribute bag carries the advisory name; when the allow/block decision
accepts it, an event row is created and the batches are recorded;
otherwise the store is returned unchanged.  The second component tells
whether scheduling was invoked. -/
def handleRPMsSigned (allowlist blocklist : RuleTable) (db : DB)
    (mid name : String) (batches : List (List BuildNode)) : DB × Bool :=
  if allowBuild allowlist blocklist "ErrataAdvisoryRPMsSignedHandler" "image"
      [("advisory_name", AttrVal.s name)] then
    let (db1, ev) := get_or_create_event db mid name "ErrataAdvisoryRPMsSignedEvent"
    (record_batches db1 ev batches, true)
  else
    (db, false)

/-- Modelled from the spec: handle an advisory state-change message;
the matching event (by search key) is marked released exactly when the
new state is the final published state SHIPPED_LIVE. -/
def handleAdvisoryStateChanged (db : DB) (errata_id : String)
    (state : String) : DB :=
  if state = "SHIPPED_LIVE" then mark_released_by_key db errata_id else db

/-! ## Retry primitive (from `freshmaker/utils.py`, `retry`)

The decorator wraps a function: it notes the start time, then loops
invoking the function; a success is returned, an exception not of the
retryable kinds propagates out of the loop at once, and a retryable
exception is re-raised when the elapsed wall-clock time has reached the
timeout and otherwise leads to a sleep of `interval` seconds and a new
attempt.  The embedding makes time explicit: attempt `k` takes
`dur k` seconds, so the clock reading at the check following attempt
`k` is the sum of the attempt durations so far plus the `interval`
sleeps already performed.  The loop itself is given fuel; `none` means
the fuel ran out before the loop finished. -/

/-- An exception: its kind (for the `except wait_on` test) and its
message. -/
structure PyExc where
  kind : String
  msg : String
deriving DecidableEq, Repr

/-- Outcome of one invocation of the wrapped function. -/
inductive AttemptOutcome where
  | ok (v : Nat)
  | exc (e : PyExc)
deriving DecidableEq, Repr

/-- Observable result of the retry loop: a returned value or a raised
exception. -/
inductive RetryResult where
  | ret (v : Nat)
  | raised (e : PyExc)
deriving DecidableEq, Repr

/-- `time.time() - start` as read by the check after attempt `k`: the
durations of attempts `0..k` plus the `k` sleeps of `interval` seconds
performed before attempt `k`. -/
def elapsedAt (dur : Nat → Nat) (interval k : Nat) : Nat :=
  ((List.range (k + 1)).map dur).sum + interval * k

/-- The retry loop from attempt `k` on, with the given fuel. -/
def retryFrom (timeout interval : Nat) (wait_on : List String)
    (dur : Nat → Nat) (f : Nat → AttemptOutcome) :
    Nat → Nat → Option RetryResult
  | 0, _ => none
  | fuel + 1, k =>
      match f k with
      | AttemptOutcome.ok v => some (RetryResult.ret v)
      | AttemptOutcome.exc e =>
          if wait_on.contains e.kind then
            if timeout ≤ elapsedAt dur interval k then
              some (RetryResult.raised e)
            else
              retryFrom timeout interval wait_on dur f fuel (k + 1)
          else some (RetryResult.raised e)

/-- The retry primitive: run the loop from the first attempt. -/
def retry (timeout interval : Nat) (wait_on : List String)
    (dur : Nat → Nat) (f : Nat → AttemptOutcome) (fuel : Nat) :
    Option RetryResult :=
  retryFrom timeout interval wait_on dur f fuel 0

/-! ## NVR rewriting (from `freshmaker/utils.py`, `get_rebuilt_nvr`)

`koji.parse_NVR` takes the substring after the last dash as release and
the one between the last two dashes as version (each must be
non-empty), strips a leading `epoch:` from the remaining name, and
raises on an invalid format. -/

/-- Index of the last dash in a character list, if any. -/
def rfindDash (cs : List Char) : Option Nat :=
  match cs.reverse.findIdx? (fun c => c = '-') with
  | none => none
  | some j => some (cs.length - 1 - j)

/-- `koji.parse_NVR`: split an NVR string into name, version and
release; `none` models the `GenericError` raised on invalid format. -/
def parse_NVR (nvr : String) : Option (String × String × String) :=
  let cs := nvr.toList
  match rfindDash cs with
  | none => none
  | some p2 =>
      if p2 = cs.length - 1 then none
      else
        match rfindDash (cs.take p2) with
        | none => none
        | some p1 =>
            if p1 + 1 = p2 then none
            else
              let release := cs.drop (p2 + 1)
              let version := (cs.take p2).drop (p1 + 1)
              let name0 := cs.take p1
              let name :=
                match name0.findIdx? (fun c => c = ':') with
                | none => name0
                | some i => name0.drop (i + 1)
              some (String.mk name, String.mk version, String.mk release)

/-- `get_rebuilt_nvr`: the new NVR used when rebuilding an artifact.
Only an image gets one: its release `XX.YY` is rewritten to
`XX.timestamp suffix`.  `now` stands for `int(time.time())` and
`suffix` for `conf.rebuilt_nvr_release_suffix`; an `Except.error`
models the exception `koji.parse_NVR` raises on a malformed NVR. -/
def get_rebuilt_nvr (artifact_type : Nat) (nvr : String) (now : Nat)
    (suffix : String) : Except String (Option String) :=
  if artifact_type = ArtifactType.image.value then
    match parse_NVR nvr with
    | none => Except.error ("invalid format: " ++ nvr)
    | some (n, v, r) =>
        let r_version := (r.splitOn ".").headD ""
        let release := r_version ++ "." ++ toString now ++ suffix
        Except.ok (some (n ++ "-" ++ v ++ "-" ++ release))
  else
    Except.ok none

/-! ## Permissions configuration
(from `freshmaker/config.py`, `Config._setifok_permissions`)

The setter validates that the value is a dictionary of role name to a
dictionary whose only keys are "users" and "groups" with lists of
strings as values, fills each missing key with an empty list, and
stores the result behind a default dictionary whose missing roles read
as empty groups and users. -/

/-- A Python value, as far as the permissions setter inspects one. -/
inductive PyVal where
  | pynone
  | str (s : String)
  | int (n : Int)
  | list (xs : List PyVal)
  | dict (kvs : List (String × PyVal))

/-- Is this value a string? -/
def pvIsStr : PyVal → Bool
  | PyVal.str _ => true
  | _ => false

/-- Dictionary lookup (first binding wins). -/
def dictLookup (kvs : List (String × PyVal)) (k : String) : Option PyVal :=
  (kvs.find? (fun kv => kv.1 = k)).map (fun kv => kv.2)

/-- One step of the `for key in allowed_keys` loop: a missing key is
filled with an empty list; a present key must hold a list of strings. -/
def fillKey (m : List (String × PyVal)) (key : String) :
    Option (List (String × PyVal)) :=
  match dictLookup m key with
  | none => some (m ++ [(key, PyVal.list [])])
  | some (PyVal.list xs) => if xs.all pvIsStr then some m else none
  | some _ => none

/-- Validate and fix one role's mapping: its keys must lie in
{"users", "groups"} and both keys are then checked or filled. -/
def checkFixMapping (m : List (String × PyVal)) :
    Option (List (String × PyVal)) :=
  if m.all (fun kv => kv.1 = "users" || kv.1 = "groups") then
    (fillKey m "users").bind (fun m1 => fillKey m1 "groups")
  else none

/-- The `for role, mapping in permissions.items()` loop: each role's
value must itself be a dictionary and is validated and fixed in place. -/
def fixRoles : List (String × PyVal) → Option (List (String × PyVal))
  | [] => some []
  | (role, PyVal.dict m) :: rest =>
      match checkFixMapping m, fixRoles rest with
      | some m', some rest' => some ((role, PyVal.dict m') :: rest')
      | _, _ => none
  | _ :: _ => none

/-- `Config._setifok_permissions`: validate the configured value and
produce the fixed role table; `none` models the raised `ValueError`. -/
def setifok_permissions (v : PyVal) : Option (List (String × PyVal)) :=
  match v with
  | PyVal.dict roles => fixRoles roles
  | _ => none

/-- Reading a role from the stored permissions: the default dictionary
yields empty groups and users for a role that was never configured. -/
def permLookup (fixed : List (String × PyVal)) (role : String) : PyVal :=
  match (fixed.find? (fun kv => kv.1 = role)).map (fun kv => kv.2) with
  | some v => v
  | none => PyVal.dict [("groups", PyVal.list []), ("users", PyVal.list [])]

/-! ## Concrete scenarios used by the tests -/

/-- A candidate node as the batch test builds one: the repository,
commit, target and branch are derived from the build name. -/
def mkNode (name : String) (parent : Option String) (error : Option String) :
    BuildNode :=
  { name := name, parent := parent, error := error,
    repository := name ++ "_repo", commit := name ++ "_123",
    target := "t1", branch := "mybranch" }

/-- The five-level dependency tree of the batch-recording scenario. -/
def c1Batches : List (List BuildNode) :=
  [[mkNode "shared_parent" none none],
   [mkNode "child1_parent3" (some "shared_parent") none,
    mkNode "child2_parent2" (some "shared_parent") none],
   [mkNode "child1_parent2" (some "child1_parent3") none,
    mkNode "child2_parent1" (some "child2_parent2") none],
   [mkNode "child1_parent1" (some "child1_parent2") (some "Fail"),
    mkNode "child2" (some "child2_parent1") none],
   [mkNode "child1" (some "child1_parent1") none]]

/-- The event the batch-recording scenario schedules against. -/
def c1Event : Event :=
  { id := 1, message_id := "123", search_key := "openssl-1.1.0-1",
    event_type := "BrewSignRPMEvent", released := false }

/-- The names of the nodes that carry an explicit error in the
five-level tree. -/
def c1ErrorNames : List String := ["child1_parent1"]

/-- Does a build have a FAILED ancestor along the `dep_on` chain within
`bs`?  The fuel bounds the chain length. -/
def hasFailedAncestor (bs : List ArtifactBuild) : Nat → ArtifactBuild → Bool
  | 0, _ => false
  | fuel + 1, b =>
      match b.dep_on with
      | none => false
      | some d =>
          bs.any (fun p =>
            p.id == d &&
              (p.state == BuildState.failed || hasFailedAncestor bs fuel p))

/-- The allow-list with the single rule requiring the advisory name to
match the pattern "RHSA-.*". -/
def rhsaAllowlist : RuleTable :=
  [("ErrataAdvisoryRPMsSignedHandler",
    [("image", [Rule.field [("advisory_name", Matcher.pat "RHSA-.*")]])])]

/-- The store of the dedup-resolver scenario: the current event and
three prior events, of which only `old_event_foo` is unreleased and
shares the build name "foo" with the current event. -/
def dedupDB : DB :=
  let mk := fun (i : Nat) (mid skey : String) (rel : Bool) =>
    ({ id := i, message_id := mid, search_key := skey,
       event_type := "ErrataAdvisoryRPMsSignedEvent", released := rel } : Event)
  let mkb := fun (i ev : Nat) (name : String) =>
    ({ id := i, event_id := ev, name := name, type := ArtifactType.image,
       state := BuildState.planned, state_reason := "",
       build_args := { repository := "", commit := "", target := "",
                       branch := "", parent := none },
       dep_on := none } : ArtifactBuild)
  { events := [mk 1 "msg1" "current_event" false,
               mk 2 "msg2" "old_event_foo" false,
               mk 3 "msg3" "old_event_foo_released" true,
               mk 4 "msg4" "old_event_bar" false],
    builds := [mkb 1 1 "foo", mkb 2 2 "foo", mkb 3 3 "foo", mkb 4 4 "bar"],
    next_event_id := 5, next_build_id := 5 }

/-- The current event of the dedup-resolver scenario. -/
def dedupCurrent : Event :=
  { id := 1, message_id := "msg1", search_key := "current_event",
    event_type := "ErrataAdvisoryRPMsSignedEvent", released := false }

/-- The invariant a scheduling run maintains: the builds of the store
are the initial ones followed by the builds created so far; every
created build belongs to the event and depends, if at all, on a build
created strictly earlier in the run; and the run's name lookup holds
only builds created in this run. -/
def SchedInv (db0 : DB) (ev : Event) (st : SchedState) : Prop :=
  ∃ created : List ArtifactBuild,
    st.1.builds = db0.builds ++ created ∧
    (∀ (i : Nat) (b : ArtifactBuild), created[i]? = some b →
      b.event_id = ev.id ∧
      (b.dep_on = none ∨ ∃ (d : Nat) (j : Nat) (b' : ArtifactBuild),
        b.dep_on = some d ∧ j < i ∧ created[j]? = some b' ∧ b'.id = d)) ∧
    (∀ kv ∈ st.2, ∃ j : Nat, created[j]? = some kv.2)

/-- The event of the small parent-child scheduling run. -/
def wEvent : Event :=
  { id := 9, message_id := "wm", search_key := "wk", event_type := "T",
    released := false }

/-- A two-level tree: one root and one child depending on it. -/
def wBatches : List (List BuildNode) :=
  [[mkNode "w_root" none none], [mkNode "w_child" (some "w_root") none]]

/-- The build the small run creates for the child node. -/
def wChildBuild : ArtifactBuild :=
  { id := 2, event_id := 9, name := "w_child", type := ArtifactType.image,
    state := BuildState.planned, state_reason := "",
    build_args := { repository := "w_child_repo", commit := "w_child_123",
                    target := "t1", branch := "mybranch",
                    parent := some "w_root" },
    dep_on := some 1 }

/-! ## Theorems -/

/-- Claim C1 as frozen is false on the code: scheduling the five-level
tree creates exactly eight builds for the event, not nine (the tree has
1 + 2 + 2 + 2 + 1 = 8 nodes, matching the claim's own count of two
FAILED plus six PLANNED builds). -/
theorem c1_nine_builds_counterexample :
    (createdBuilds DB.empty c1Event c1Batches).length = 8 ∧
      (createdBuilds DB.empty c1Event c1Batches).length ≠ 9 := by
  constructor <;> decide

/-- Claim C1 (amended: eight builds, not nine): scheduling the
five-level tree creates exactly eight builds for the event, of which
`child1_parent1` (which carries an explicit error) and `child1` (whose
parent is FAILED) are created in FAILED state and the other six in
PLANNED state, and no build with an explicit error or a FAILED
ancestor is created as PLANNED. -/
theorem c1_five_level_tree_states :
    (createdBuilds DB.empty c1Event c1Batches).map
        (fun b => (b.name, b.state)) =
      [("shared_parent", BuildState.planned),
       ("child1_parent3", BuildState.planned),
       ("child2_parent2", BuildState.planned),
       ("child1_parent2", BuildState.planned),
       ("child2_parent1", BuildState.planned),
       ("child1_parent1", BuildState.failed),
       ("child2", BuildState.planned),
       ("child1", BuildState.failed)] ∧
    ((createdBuilds DB.empty c1Event c1Batches).all (fun b =>
        !(c1ErrorNames.contains b.name ||
            hasFailedAncestor (createdBuilds DB.empty c1Event c1Batches) 8 b) ||
          b.state == BuildState.failed)) = true := by
  constructor <;> decide

/-- Claim C2: a set matcher matches an attribute bag iff the bag's
value for the attribute is one of the allowed literals, or, for a
collection value, the intersection with the allowed set is non-empty;
in particular the rule requiring "k" in the set containing "a" and "b"
matches the bag binding "k" to "a" and the bag binding "k" to the
collection of "a" and "x", but not the bag binding "k" to "c". -/
theorem set_matcher_matches_allowed_values :
    (∀ vs x, matchValue (Matcher.allowed vs) (AttrVal.s x) = true ↔ x ∈ vs) ∧
    (∀ vs xs, matchValue (Matcher.allowed vs) (AttrVal.many xs) = true ↔
        ∃ x ∈ xs, x ∈ vs) ∧
    evalRule [("k", AttrVal.s "a")]
        (Rule.field [("k", Matcher.allowed ["a", "b"])]) = true ∧
    evalRule [("k", AttrVal.many ["a", "x"])]
        (Rule.field [("k", Matcher.allowed ["a", "b"])]) = true ∧
    evalRule [("k", AttrVal.s "c")]
        (Rule.field [("k", Matcher.allowed ["a", "b"])]) = false := by
  refine ⟨?_, ?_, by decide, by decide, by decide⟩
  · intro vs x
    simp [matchValue]
  · intro vs xs
    simp [matchValue]

/-- Claim C2, applied at the concrete set matcher: the allowed set
containing "a" and "b" matches the value "a". -/
theorem set_matcher_matches_allowed_values_witness :
    ("a" : String) ∈ (["a", "b"] : List String) :=
  (set_matcher_matches_allowed_values.1 ["a", "b"] "a").mp (by decide)

/-- Claim C7: under the allow-list with the single rule matching
advisory names against "RHSA-.*" and an empty block-list, an inbound
advisory named RHSA-2017 is accepted and scheduling is invoked, while
one named RHBA-2017 is rejected and dropped silently with nothing
recorded; in general a candidate is accepted iff the allow-list for the
handler and type is empty or some rule of it matches, and the
block-list is empty or no rule of it matches. -/
theorem allow_list_accepts_rhsa_rejects_rhba :
    (∀ db mid batches,
        (handleRPMsSigned rhsaAllowlist [] db mid "RHSA-2017" batches).2 = true) ∧
    (∀ db mid batches,
        handleRPMsSigned rhsaAllowlist [] db mid "RHBA-2017" batches = (db, false)) ∧
    (∀ al bl handler atype bag,
        allowBuild al bl handler atype bag = true ↔
          ((rulesFor al handler atype = [] ∨
              ∃ r ∈ rulesFor al handler atype, evalRule bag r = true) ∧
           (rulesFor bl handler atype = [] ∨
              ∀ r ∈ rulesFor bl handler atype, evalRule bag r = false))) := by
  refine ⟨?_, ?_, ?_⟩
  · intro db mid batches
    have hc : allowBuild rhsaAllowlist [] "ErrataAdvisoryRPMsSignedHandler" "image"
        [("advisory_name", AttrVal.s "RHSA-2017")] = true := by decide
    simp [handleRPMsSigned, hc]
  · intro db mid batches
    have hc : allowBuild rhsaAllowlist [] "ErrataAdvisoryRPMsSignedHandler" "image"
        [("advisory_name", AttrVal.s "RHBA-2017")] = false := by decide
    simp [handleRPMsSigned, hc]
  · intro al bl handler atype bag
    simp only [allowBuild, Bool.and_eq_true, Bool.or_eq_true, Bool.not_eq_true',
      List.isEmpty_iff, List.any_eq_true, List.any_eq_false]
    constructor
    · rintro ⟨h1, h2⟩
      refine ⟨?_, ?_⟩
      · rcases h1 with h1 | h1
        · exact Or.inl h1
        · exact Or.inr h1
      · rcases h2 with h2 | h2
        · exact Or.inl h2
        · exact Or.inr (fun r hr => by simpa using h2 r hr)
    · rintro ⟨h1, h2⟩
      refine ⟨?_, ?_⟩
      · rcases h1 with h1 | h1
        · exact Or.inl h1
        · exact Or.inr h1
      · rcases h2 with h2 | h2
        · exact Or.inl h2
        · exact Or.inr (fun r hr => by simpa using h2 r hr)

/-- Claim C7, applied at a concrete input: the allow decision under the
RHSA allow-list accepts the advisory name RHSA-2017. -/
theorem allow_list_accepts_rhsa_rejects_rhba_witness :
    handleRPMsSigned rhsaAllowlist [] DB.empty "m" "RHBA-2017" [] =
      (DB.empty, false) :=
  allow_list_accepts_rhsa_rejects_rhba.2.1 DB.empty "m" []

/-- Claim C5: the dedup resolver returns exactly the events other than
the current one that are unreleased and own at least one build whose
name is among the candidates; when event rows have distinct ids, each
qualifying event appears at most once in the result. -/
theorem find_events_to_include_spec (db : DB) (cur : Event)
    (names : List String) (hnd : (db.events.map Event.id).Nodup) :
    (∀ e, e ∈ find_unreleased_events_with_builds db names cur ↔
        (e ∈ db.events ∧ e.id ≠ cur.id ∧ e.released = false ∧
          ∃ b ∈ db.builds, b.event_id = e.id ∧ b.name ∈ names)) ∧
    ((find_unreleased_events_with_builds db names cur).map Event.id).Nodup := by
  constructor
  · intro e
    simp only [find_unreleased_events_with_builds, List.mem_filter,
      Bool.and_eq_true, Bool.not_eq_true', decide_eq_true_eq,
      List.any_eq_true, ne_eq]
    constructor
    · rintro ⟨hm, ⟨hid, hrel⟩, b, hb, hev, hn⟩
      exact ⟨hm, by simpa using hid, hrel,
        b, hb, by simpa using hev, by simpa using hn⟩
    · rintro ⟨hm, hid, hrel, b, hb, hev, hn⟩
      exact ⟨hm, ⟨by simpa using hid, hrel⟩,
        b, hb, by simp [hev], by simpa using hn⟩
  · exact hnd.sublist ((List.filter_sublist _).map Event.id)

/-- Claim C5, applied at the concrete scenario of the tests: among the
current event and three prior ones, exactly the unreleased prior event
owning the shared build name "foo" is returned. -/
theorem find_events_to_include_witness :
    ((find_unreleased_events_with_builds dedupDB ["foo"] dedupCurrent).map
        Event.id).Nodup ∧
    ({ id := 2, message_id := "msg2", search_key := "old_event_foo",
       event_type := "ErrataAdvisoryRPMsSignedEvent", released := false } : Event)
      ∈ find_unreleased_events_with_builds dedupDB ["foo"] dedupCurrent := by
  refine ⟨(find_events_to_include_spec dedupDB dedupCurrent ["foo"] (by decide)).2, ?_⟩
  exact ((find_events_to_include_spec dedupDB dedupCurrent ["foo"]
    (by decide)).1 _).mpr (by decide)

/-- Claim C6: calling `get_or_create_event` twice with the same message
id returns the same event identity both times and leaves the store of
the first call untouched; when no event with that message id existed,
the first call creates exactly one row, with `released = false`. -/
theorem get_or_create_event_idempotent (db : DB) (mid skey etype : String) :
    (get_or_create_event (get_or_create_event db mid skey etype).1 mid skey etype).2 =
      (get_or_create_event db mid skey etype).2 ∧
    (get_or_create_event (get_or_create_event db mid skey etype).1 mid skey etype).1 =
      (get_or_create_event db mid skey etype).1 ∧
    ((∀ e ∈ db.events, e.message_id ≠ mid) →
      (get_or_create_event db mid skey etype).2.released = false ∧
      ((get_or_create_event db mid skey etype).1.events.filter
          (fun e => e.message_id == mid)).length = 1 ∧
      (get_or_create_event db mid skey etype).1.events.length =
        db.events.length + 1) := by
  rcases hfind : db.events.find? (fun e => e.message_id = mid) with _ | e
  · have hnone : ∀ e ∈ db.events, ¬(e.message_id = mid) := by
      intro e he
      have h := List.find?_eq_none.mp hfind e he
      simpa using h
    have hfind2 : (db.events ++
        [({ id := db.next_event_id, message_id := mid, search_key := skey,
            event_type := etype, released := false } : Event)]).find?
          (fun e => e.message_id = mid) =
        some { id := db.next_event_id, message_id := mid, search_key := skey,
               event_type := etype, released := false } := by
      rw [List.find?_append, hfind]
      simp
    refine ⟨?_, ?_, ?_⟩
    · simp [get_or_create_event, hfind, hfind2]
    · simp [get_or_create_event, hfind, hfind2]
    · intro _
      have hfe : db.events.filter (fun e => e.message_id == mid) = [] := by
        rw [List.filter_eq_nil_iff]
        intro e he
        simpa using hnone e he
      simp [get_or_create_event, hfind, List.filter_append, hfe]
  · have hmem := List.mem_of_find?_eq_some hfind
    have hmid : e.message_id = mid := by
      have h := List.find?_some hfind
      simpa using h
    refine ⟨?_, ?_, ?_⟩
    · simp [get_or_create_event, hfind]
    · simp [get_or_create_event, hfind]
    · intro hall
      exact absurd hmid (hall e hmem)

/-- Claim C6, applied at a concrete input: creating an event twice with
message id "msg-1" on the empty store yields exactly one row with that
message id. -/
theorem get_or_create_event_idempotent_witness :
    ((get_or_create_event DB.empty "msg-1" "123" "T").1.events.filter
        (fun e => e.message_id == "msg-1")).length = 1 :=
  ((get_or_create_event_idempotent DB.empty "msg-1" "123" "T").2.2
    (by intro e he; simp [DB.empty] at he)).2.1

/-- Claim C8: handling an advisory state change marks every event whose
search key matches released exactly when the new state is SHIPPED_LIVE,
the marking is idempotent, and for each of the earlier states
NEW_FILES, QE, REL_PREP, PUSH_READY and IN_PUSH the store, and with it
every released flag, is left unchanged. -/
theorem mark_released_on_shipped_live (db : DB) (skey : String) :
    (∀ e, e ∈ (handleAdvisoryStateChanged db skey "SHIPPED_LIVE").events →
        e.search_key = skey → e.released = true) ∧
    handleAdvisoryStateChanged
        (handleAdvisoryStateChanged db skey "SHIPPED_LIVE") skey "SHIPPED_LIVE" =
      handleAdvisoryStateChanged db skey "SHIPPED_LIVE" ∧
    (∀ s, s ∈ ["NEW_FILES", "QE", "REL_PREP", "PUSH_READY", "IN_PUSH"] →
        handleAdvisoryStateChanged db skey s = db) := by
  have hsl : ∀ d : DB, handleAdvisoryStateChanged d skey "SHIPPED_LIVE" =
      mark_released_by_key d skey := by
    intro d
    simp [handleAdvisoryStateChanged]
  refine ⟨?_, ?_, ?_⟩
  · intro e he hk
    rw [hsl] at he
    simp only [mark_released_by_key, List.mem_map] at he
    obtain ⟨a, -, ha⟩ := he
    by_cases hak : a.search_key = skey
    · rw [if_pos hak] at ha
      rw [← ha]
    · rw [if_neg hak] at ha
      subst ha
      exact absurd hk hak
  · rw [hsl, hsl]
    simp only [mark_released_by_key, List.map_map]
    have hmaps : ∀ l : List Event,
        l.map ((fun e : Event =>
            if e.search_key = skey then { e with released := true } else e) ∘
          (fun e : Event =>
            if e.search_key = skey then { e with released := true } else e)) =
        l.map (fun e : Event =>
            if e.search_key = skey then { e with released := true } else e) := by
      intro l
      apply List.map_congr_left
      intro a _
      by_cases hak : a.search_key = skey <;> simp [hak]
    rw [hmaps]
  · intro s hs
    fin_cases hs <;> rfl

/-- Claim C8, applied at the concrete scenario store: after the
SHIPPED_LIVE state change for the advisory behind the current event,
that event's row reads released. -/
theorem mark_released_on_shipped_live_witness :
    ({ id := 1, message_id := "msg1", search_key := "current_event",
       event_type := "ErrataAdvisoryRPMsSignedEvent", released := true } : Event).released
      = true :=
  (mark_released_on_shipped_live dedupDB "current_event").1 _ (by decide) rfl

/-- Claim C9: for every artifact type other than the image type,
`get_rebuilt_nvr` returns None regardless of the input NVR; an image
artifact with a well-formed NVR keeps its name and version and has its
release rewritten to the first dot-component of the old release
followed by the timestamp and the configured suffix. -/
theorem get_rebuilt_nvr_only_for_images (t : ArtifactType) (nvr : String)
    (now : Nat) (suffix : String) (ht : t ≠ ArtifactType.image) :
    get_rebuilt_nvr t.value nvr now suffix = Except.ok none ∧
    (∀ n v r, parse_NVR nvr = some (n, v, r) →
      get_rebuilt_nvr ArtifactType.image.value nvr now suffix =
        Except.ok (some (n ++ "-" ++ v ++ "-" ++
          ((r.splitOn ".").headD "" ++ "." ++ toString now ++ suffix)))) := by
  constructor
  · cases t with
    | rpm => simp [get_rebuilt_nvr, ArtifactType.value]
    | module => simp [get_rebuilt_nvr, ArtifactType.value]
    | image => exact absurd rfl ht
  · intro n v r hp
    simp [get_rebuilt_nvr, hp]

/-- Claim C9, applied at a concrete input: an rpm artifact gets no
rebuilt NVR for the NVR httpd-2.4-15.el7. -/
theorem get_rebuilt_nvr_only_for_images_witness :
    get_rebuilt_nvr ArtifactType.rpm.value "httpd-2.4-15.el7" 1000 ".fm" =
      Except.ok none :=
  (get_rebuilt_nvr_only_for_images ArtifactType.rpm "httpd-2.4-15.el7" 1000 ".fm"
    (by decide)).1

/-- Retryable failures before the timeout only consume fuel: the loop
moves on to the next attempt. -/
theorem retryFrom_skip (timeout interval : Nat) (wait_on : List String)
    (dur : Nat → Nat) (f : Nat → AttemptOutcome) :
    ∀ (k : Nat), ∀ (s fuel : Nat),
      (∀ j, s ≤ j → j < s + k → ∃ e, f j = AttemptOutcome.exc e ∧
        wait_on.contains e.kind = true ∧ elapsedAt dur interval j < timeout) →
      k ≤ fuel →
      retryFrom timeout interval wait_on dur f fuel s =
        retryFrom timeout interval wait_on dur f (fuel - k) (s + k) := by
  intro k
  induction k with
  | zero =>
      intro s fuel _ _
      simp
  | succ k ih =>
      intro s fuel hpre hk
      obtain ⟨fuel', rfl⟩ : ∃ fuel', fuel = fuel' + 1 := ⟨fuel - 1, by omega⟩
      obtain ⟨e, hfe, hcont, helap⟩ := hpre s (Nat.le_refl s) (by omega)
      have hstep : retryFrom timeout interval wait_on dur f (fuel' + 1) s =
          retryFrom timeout interval wait_on dur f fuel' (s + 1) := by
        simp only [retryFrom, hfe, hcont, if_true]
        rw [if_neg (by omega)]
      rw [hstep]
      have h2 := ih (s + 1) fuel'
        (fun j hj1 hj2 => hpre j (by omega) (by omega)) (by omega)
      rw [h2]
      have he1 : fuel' + 1 - (k + 1) = fuel' - k := by omega
      have he2 : s + 1 + k = s + (k + 1) := by omega
      rw [he1, he2]

/-- Claim C4: the retry primitive propagates a non-retryable exception
immediately on the attempt that raises it; for retryable exceptions it
keeps re-invoking the operation until one invocation succeeds, whose
result is returned, or until the elapsed time since the first attempt
has reached the timeout when a retryable failure is caught, at which
point that failure is re-raised, never swallowed. -/
theorem retry_propagates_and_bounds (timeout interval : Nat)
    (wait_on : List String) (dur : Nat → Nat) (f : Nat → AttemptOutcome)
    (fuel k : Nat) (hfuel : k < fuel)
    (hpre : ∀ j, j < k → ∃ e, f j = AttemptOutcome.exc e ∧
        wait_on.contains e.kind = true ∧ elapsedAt dur interval j < timeout) :
    (∀ e, f k = AttemptOutcome.exc e → wait_on.contains e.kind = false →
        retry timeout interval wait_on dur f fuel =
          some (RetryResult.raised e)) ∧
    (∀ v, f k = AttemptOutcome.ok v →
        retry timeout interval wait_on dur f fuel =
          some (RetryResult.ret v)) ∧
    (∀ e, f k = AttemptOutcome.exc e → wait_on.contains e.kind = true →
        timeout ≤ elapsedAt dur interval k →
        retry timeout interval wait_on dur f fuel =
          some (RetryResult.raised e)) := by
  have hskip : retry timeout interval wait_on dur f fuel =
      retryFrom timeout interval wait_on dur f (fuel - k) k := by
    have h := retryFrom_skip timeout interval wait_on dur f k 0 fuel
      (fun j _ hj => hpre j (by omega)) (by omega)
    simpa [retry] using h
  obtain ⟨fuel', hf'⟩ : ∃ fuel', fuel - k = fuel' + 1 := ⟨fuel - k - 1, by omega⟩
  rw [hskip, hf']
  refine ⟨?_, ?_, ?_⟩
  · intro e hfe hcont
    simp only [retryFrom, hfe, hcont]
    simp
  · intro v hfv
    simp only [retryFrom, hfv]
  · intro e hfe hcont htime
    simp only [retryFrom, hfe, hcont, if_true]
    rw [if_pos htime]

/-- Claim C4, applied at a concrete input: two retryable failures
within the timeout followed by a success make the wrapped call return
that success. -/
theorem retry_propagates_and_bounds_witness :
    retry 100 10 ["IOError"] (fun _ => 1)
      (fun j => if j < 2 then AttemptOutcome.exc ⟨"IOError", "tmp"⟩
                else AttemptOutcome.ok 7) 3 =
      some (RetryResult.ret 7) :=
  (retry_propagates_and_bounds 100 10 ["IOError"] (fun _ => 1)
    (fun j => if j < 2 then AttemptOutcome.exc ⟨"IOError", "tmp"⟩
              else AttemptOutcome.ok 7) 3 2 (by omega)
    (by
      intro j hj
      refine ⟨⟨"IOError", "tmp"⟩, by simp [hj], by decide, ?_⟩
      interval_cases j <;> decide)).2.1 7 (by decide)

/-- A role mapping fixed by `fillKey` holds the filled key as a list. -/
theorem fillKey_lookup_self (m m1 : List (String × PyVal)) (key : String)
    (hf : fillKey m key = some m1) :
    ∃ xs, dictLookup m1 key = some (PyVal.list xs) := by
  rcases hlk : dictLookup m key with _ | pv
  · simp only [fillKey, hlk, Option.some.injEq] at hf
    subst hf
    refine ⟨[], ?_⟩
    have hfm : m.find? (fun kv => kv.1 = key) = none := by
      rcases hh : m.find? (fun kv => kv.1 = key) with _ | kv
      · exact hh
      · exfalso
        unfold dictLookup at hlk
        rw [hh] at hlk
        cases hlk
    unfold dictLookup
    rw [List.find?_append, hfm]
    simp
  · cases pv with
    | list xs =>
        simp only [fillKey, hlk] at hf
        by_cases hall : xs.all pvIsStr = true
        · simp only [hall, if_true, Option.some.injEq] at hf
          subst hf
          exact ⟨xs, hlk⟩
        · simp [hall] at hf
    | pynone => simp [fillKey, hlk] at hf
    | str s => simp [fillKey, hlk] at hf
    | int n => simp [fillKey, hlk] at hf
    | dict kvs => simp [fillKey, hlk] at hf

/-- `fillKey` never removes a key that was already present. -/
theorem fillKey_lookup_other (m m1 : List (String × PyVal)) (key other : String)
    (hf : fillKey m key = some m1) (pv : PyVal)
    (hlk : dictLookup m other = some pv) :
    dictLookup m1 other = some pv := by
  rcases hk : dictLookup m key with _ | kv
  · simp only [fillKey, hk, Option.some.injEq] at hf
    subst hf
    unfold dictLookup at hlk ⊢
    rcases hfa : m.find? (fun kv => kv.1 = other) with _ | kv2
    · rw [hfa] at hlk
      cases hlk
    · rw [List.find?_append, hfa]
      rw [hfa] at hlk
      simpa using hlk
  · cases kv with
    | list xs =>
        simp only [fillKey, hk] at hf
        by_cases hall : xs.all pvIsStr = true
        · simp only [hall, if_true, Option.some.injEq] at hf
          subst hf
          exact hlk
        · simp [hall] at hf
    | pynone => simp [fillKey, hk] at hf
    | str s => simp [fillKey, hk] at hf
    | int n => simp [fillKey, hk] at hf
    | dict kvs => simp [fillKey, hk] at hf

/-- A mapping accepted by `checkFixMapping` ends with both the
"groups" and the "users" keys bound to lists. -/
theorem checkFixMapping_total (m m' : List (String × PyVal))
    (hc : checkFixMapping m = some m') :
    ∃ gs us, dictLookup m' "groups" = some (PyVal.list gs) ∧
      dictLookup m' "users" = some (PyVal.list us) := by
  by_cases hkeys : m.all (fun kv => kv.1 = "users" || kv.1 = "groups") = true
  · rcases h1 : fillKey m "users" with _ | m1
    · simp [checkFixMapping, hkeys, h1] at hc
    · have hc2 : fillKey m1 "groups" = some m' := by
        simpa [checkFixMapping, hkeys, h1] using hc
      obtain ⟨us, hus⟩ := fillKey_lookup_self m m1 "users" h1
      obtain ⟨gs, hgs⟩ := fillKey_lookup_self m1 m' "groups" hc2
      exact ⟨gs, us, hgs, fillKey_lookup_other m1 m' "groups" "users" hc2 _ hus⟩
  · simp [checkFixMapping, hkeys] at hc

/-- Every role accepted by `fixRoles` maps to a dictionary with both
the "groups" and "users" keys bound to lists. -/
theorem fixRoles_total (roles fixed : List (String × PyVal))
    (hfx : fixRoles roles = some fixed) :
    ∀ kv ∈ fixed, ∃ kvs gs us, kv.2 = PyVal.dict kvs ∧
      dictLookup kvs "groups" = some (PyVal.list gs) ∧
      dictLookup kvs "users" = some (PyVal.list us) := by
  induction roles generalizing fixed with
  | nil =>
      unfold fixRoles at hfx
      obtain rfl := Option.some.injEq _ _ ▸ hfx
      intro kv hkv
      cases hkv
  | cons hd tl ih =>
      obtain ⟨role, pv⟩ := hd
      cases pv with
      | dict m =>
          unfold fixRoles at hfx
          rcases hcf : checkFixMapping m with _ | m'
          · rw [hcf] at hfx
            cases hfx
          · rw [hcf] at hfx
            rcases hrest : fixRoles tl with _ | rest'
            · rw [hrest] at hfx
              cases hfx
            · rw [hrest] at hfx
              obtain rfl := Option.some.injEq _ _ ▸ hfx
              intro kv hkv
              rcases List.mem_cons.mp hkv with rfl | hkv'
              · obtain ⟨gs, us, hgs, hus⟩ := checkFixMapping_total m m' hcf
                exact ⟨m', gs, us, rfl, hgs, hus⟩
              · exact ih rest' hrest kv hkv'
      | pynone => cases hfx
      | str s => cases hfx
      | int n => cases hfx
      | list xs => cases hfx

/-- Claim C10: after the permissions configuration item is set with a
valid value, looking up any role name in the resulting mapping,
configured or not, yields a dictionary carrying both the "groups" and
"users" keys with list values; configured roles missing one of the
keys have it filled in with an empty list. -/
theorem permissions_lookup_always_total (v : PyVal)
    (fixed : List (String × PyVal))
    (hok : setifok_permissions v = some fixed) :
    ∀ role, ∃ kvs gs us,
      permLookup fixed role = PyVal.dict kvs ∧
      dictLookup kvs "groups" = some (PyVal.list gs) ∧
      dictLookup kvs "users" = some (PyVal.list us) := by
  intro role
  have hroles : ∀ kv ∈ fixed, ∃ kvs gs us, kv.2 = PyVal.dict kvs ∧
      dictLookup kvs "groups" = some (PyVal.list gs) ∧
      dictLookup kvs "users" = some (PyVal.list us) := by
    unfold setifok_permissions at hok
    cases v with
    | dict roles => exact fixRoles_total roles fixed hok
    | pynone => cases hok
    | str s => cases hok
    | int n => cases hok
    | list xs => cases hok
  unfold permLookup
  rcases hfd : fixed.find? (fun kv => kv.1 = role) with _ | kv
  · rw [hfd]
    exact ⟨[("groups", PyVal.list []), ("users", PyVal.list [])], [], [],
      rfl, rfl, rfl⟩
  · rw [hfd]
    have hmem := List.mem_of_find?_eq_some hfd
    obtain ⟨kvs, gs, us, hdict, hgs, hus⟩ := hroles kv hmem
    exact ⟨kvs, gs, us, hdict, hgs, hus⟩

/-- Claim C10, applied at a concrete input: a single configured role
"admin" with only a "users" entry is accepted, and the lookup of a
never-configured role yields a dictionary with both keys present. -/
theorem permissions_lookup_always_total_witness :
    ∃ kvs gs us,
      permLookup [("admin",
          PyVal.dict [("users", PyVal.list [PyVal.str "user"]),
                      ("groups", PyVal.list [])])] "operator" = PyVal.dict kvs ∧
      dictLookup kvs "groups" = some (PyVal.list gs) ∧
      dictLookup kvs "users" = some (PyVal.list us) :=
  permissions_lookup_always_total
    (PyVal.dict [("admin", PyVal.dict [("users", PyVal.list [PyVal.str "user"])])])
    [("admin", PyVal.dict [("users", PyVal.list [PyVal.str "user"]),
                           ("groups", PyVal.list [])])]
    rfl "operator"

/-- The scheduler invariant holds at the start of a run. -/
theorem schedInv_init (db0 : DB) (ev : Event) : SchedInv db0 ev (db0, []) := by
  refine ⟨[], by simp, ?_, ?_⟩
  · intro i b hib
    simp at hib
  · intro kv hkv
    simp at hkv

/-- Appending one build whose dependency, if any, comes from the run's
lookup preserves the scheduler invariant. -/
theorem SchedInv.append (db0 : DB) (ev : Event) (st : SchedState)
    (h : SchedInv db0 ev st) (nb : ArtifactBuild) (nm : String)
    (hev : nb.event_id = ev.id)
    (hdep : nb.dep_on = none ∨ ∃ kv ∈ st.2, nb.dep_on = some kv.2.id) :
    SchedInv db0 ev
      ({ st.1 with builds := st.1.builds ++ [nb],
                   next_build_id := st.1.next_build_id + 1 },
       st.2 ++ [(nm, nb)]) := by
  obtain ⟨created, hb, hprop, hlk⟩ := h
  refine ⟨created ++ [nb], ?_, ?_, ?_⟩
  · show st.1.builds ++ [nb] = db0.builds ++ (created ++ [nb])
    rw [hb, List.append_assoc]
  · intro i b hib
    by_cases hi : i < created.length
    · rw [List.getElem?_append_left hi] at hib
      obtain ⟨hev', hdep'⟩ := hprop i b hib
      refine ⟨hev', ?_⟩
      rcases hdep' with hn | ⟨d, j, b', hd, hj, hjb, hid⟩
      · exact Or.inl hn
      · refine Or.inr ⟨d, j, b', hd, hj, ?_, hid⟩
        rw [List.getElem?_append_left (by omega)]
        exact hjb
    · have hilen : i < created.length + 1 := by
        by_contra hg
        have hnone : (created ++ [nb])[i]? = none := by
          apply List.getElem?_eq_none
          simp only [List.length_append, List.length_singleton]
          omega
        rw [hnone] at hib
        cases hib
      have hieq : i = created.length := by omega
      subst hieq
      rw [List.getElem?_concat_length] at hib
      obtain rfl : nb = b := by
        cases hib
        rfl
      refine ⟨hev, ?_⟩
      rcases hdep with hn | ⟨kv, hkv, hdd⟩
      · exact Or.inl hn
      · obtain ⟨j, hj⟩ := hlk kv hkv
        have hjlt : j < created.length := by
          by_contra hg
          have hnone : created[j]? = none := List.getElem?_eq_none (by omega)
          rw [hnone] at hj
          cases hj
        refine Or.inr ⟨kv.2.id, j, kv.2, hdd, hjlt, ?_, rfl⟩
        rw [List.getElem?_append_left hjlt]
        exact hj
  · intro kv hkv
    rcases List.mem_append.mp hkv with hm | hm
    · obtain ⟨j, hj⟩ := hlk kv hm
      have hjlt : j < created.length := by
        by_contra hg
        have hnone : created[j]? = none := List.getElem?_eq_none (by omega)
        rw [hnone] at hj
        cases hj
      refine ⟨j, ?_⟩
      rw [List.getElem?_append_left hjlt]
      exact hj
    · have hkv2 : kv = (nm, nb) := by simpa using hm
      subst hkv2
      refine ⟨created.length, ?_⟩
      rw [List.getElem?_concat_length]

/-- Processing one node preserves the scheduler invariant. -/
theorem schedInv_step (db0 : DB) (ev : Event) (st : SchedState)
    (node : BuildNode) (h : SchedInv db0 ev st) :
    SchedInv db0 ev (recordNode ev st node) := by
  rcases hp : node.parent.bind (fun p =>
      (st.2.find? (fun kv => kv.1 = p)).map (fun kv => kv.2)) with _ | pb
  · simp only [recordNode, hp, Option.map_none']
    exact SchedInv.append db0 ev st h _ node.name rfl (Or.inl rfl)
  · simp only [recordNode, hp, Option.map_some']
    refine SchedInv.append db0 ev st h _ node.name rfl ?_
    obtain ⟨pn, hpn, hfind⟩ := Option.bind_eq_some.mp hp
    obtain ⟨kv, hkv, hkv2⟩ := Option.map_eq_some'.mp hfind
    exact Or.inr ⟨kv, List.mem_of_find?_eq_some hkv, by rw [hkv2]⟩

/-- Folding the scheduler over a list of nodes preserves the
invariant. -/
theorem schedInv_fold_nodes (db0 : DB) (ev : Event) :
    ∀ (nodes : List BuildNode) (st : SchedState), SchedInv db0 ev st →
      SchedInv db0 ev (nodes.foldl (recordNode ev) st) := by
  intro nodes
  induction nodes with
  | nil =>
      intro st h
      simpa using h
  | cons hd tl ih =>
      intro st h
      simpa using ih (recordNode ev st hd) (schedInv_step db0 ev st hd h)

/-- Folding the scheduler over all levels preserves the invariant. -/
theorem schedInv_fold_batches (db0 : DB) (ev : Event) :
    ∀ (batches : List (List BuildNode)) (st : SchedState), SchedInv db0 ev st →
      SchedInv db0 ev (batches.foldl (recordBatch ev) st) := by
  intro batches
  induction batches with
  | nil =>
      intro st h
      simpa using h
  | cons hd tl ih =>
      intro st h
      exact ih (recordBatch ev st hd) (schedInv_fold_nodes db0 ev hd st h)

/-- Claim C3: on every build created by a batch scheduling run, the
`dep_on` reference is either null or refers to a build belonging to the
same event and created strictly earlier in processing order, so the
per-event `dep_on` graph is acyclic by construction; a node with no
declared parent gets a null `dep_on`. -/
theorem record_batches_dep_on_acyclic (db : DB) (ev : Event)
    (batches : List (List BuildNode)) :
    (∀ (i : Nat) (b : ArtifactBuild), (createdBuilds db ev batches)[i]? = some b →
      b.event_id = ev.id ∧
      (b.dep_on = none ∨ ∃ (d : Nat) (j : Nat) (b' : ArtifactBuild),
        b.dep_on = some d ∧ j < i ∧
        (createdBuilds db ev batches)[j]? = some b' ∧ b'.id = d ∧
        b'.event_id = ev.id)) ∧
    (∀ (st : SchedState) (node : BuildNode), node.parent = none →
      ∃ nb, recordNode ev st node =
        ({ st.1 with builds := st.1.builds ++ [nb],
                     next_build_id := st.1.next_build_id + 1 },
         st.2 ++ [(node.name, nb)]) ∧ nb.dep_on = none) := by
  constructor
  · have hinv := schedInv_fold_batches db ev batches (db, []) (schedInv_init db ev)
    obtain ⟨created, hbuilds, hprop, -⟩ := hinv
    have hcb : createdBuilds db ev batches = created := by
      unfold createdBuilds record_batches
      rw [hbuilds, List.drop_left]
    rw [hcb]
    intro i b hib
    obtain ⟨hev, hdep⟩ := hprop i b hib
    refine ⟨hev, ?_⟩
    rcases hdep with hn | ⟨d, j, b', hd, hj, hjb, hid⟩
    · exact Or.inl hn
    · obtain ⟨hev', -⟩ := hprop j b' hjb
      exact Or.inr ⟨d, j, b', hd, hj, hjb, hid, hev'⟩
  · intro st node hpar
    refine ⟨_, rfl, ?_⟩
    simp [hpar]

/-- Claim C3, applied at a concrete two-level run: the child build of
the small parent-child tree belongs to the run's event and depends on a
build created strictly earlier. -/
theorem record_batches_dep_on_acyclic_witness :
    wChildBuild.event_id = wEvent.id ∧
      (wChildBuild.dep_on = none ∨ ∃ (d : Nat) (j : Nat) (b' : ArtifactBuild),
        wChildBuild.dep_on = some d ∧
        j < 1 ∧ (createdBuilds DB.empty wEvent wBatches)[j]? = some b' ∧
        b'.id = d ∧ b'.event_id = wEvent.id) :=
  (record_batches_dep_on_acyclic DB.empty wEvent wBatches).1 1 wChildBuild
    (by decide)

end Freshmaker
